import Mathlib

/-!
A shallow embedding, in Lean 4, of the user-account service implemented in
`src/db/crud.py`, `src/db/models.py`, `src/db/schemas.py` and `src/fastapi.py`
of the repository, together with proofs settling the specification claims
about it.

Conventions of the embedding:

* Python strings are Lean `String`s; the characters of a string are reached
  through `String.data`.
* `hashlib.pbkdf2_hmac(alg, password, salt, iterations)` is an external
  library primitive, not code of this repository; it is modelled as an
  explicit function parameter
  `kdf : String → String → String → Nat → List Nat`
  (algorithm name, password, salt, iteration count ↦ derived key bytes).
  Theorems that need it assume only that its output bytes are bytes
  (`< 256`), which is true of any byte string.
* `secrets.token_hex(16)` draws 16 random bytes and hex-encodes them; the
  drawn bytes are passed to `hash_password` as an explicit `saltBytes`
  parameter, universally quantified in the theorems ("for any salt the
  hasher may generate").
* The relational store is a `DB` value: lists of user and profile rows plus
  the id counters and the current clock. `query(...).filter(...).first()`
  becomes `List.find?`. A raised-and-uncaught `IntegrityError` becomes an
  `Except.error`; SQLAlchemy's rollback-on-conflict means the failing
  operation returns the store unchanged.
-/

namespace UserService

/-! ## Credential hasher (src/db/crud.py, lines 9-22) -/

/-- One hexadecimal digit, lowercase, as produced by Python `bytes.hex()`. -/
def hexDigit (n : Nat) : Char :=
  if n < 10 then Char.ofNat (48 + n) else Char.ofNat (87 + n)

/-- The sixteen characters Python `bytes.hex()` can emit. -/
def hexCharList : List Char :=
  "0123456789abcdef".data

/-- The two hex characters of one byte, as in Python `bytes.hex()`. -/
def byteToHexChars (b : Nat) : List Char :=
  [hexDigit (b / 16), hexDigit (b % 16)]

def bytesToHexChars (bs : List Nat) : List Char :=
  (bs.map byteToHexChars).flatten

/-- Python `bytes.hex()`: lowercase hex encoding of a byte string. -/
def bytesToHex (bs : List Nat) : String :=
  String.mk (bytesToHexChars bs)

/-- Python `str.split('$')` on the character list of the string: splits at
every occurrence of `'$'`, keeping empty segments. -/
def splitDollarList : List Char → List (List Char)
  | [] => [[]]
  | c :: cs =>
    if c = '$' then [] :: splitDollarList cs
    else
      match splitDollarList cs with
      | [] => [[c]]
      | h :: t => (c :: h) :: t

/-- Python `stored.split('$')`. -/
def pySplitDollar (s : String) : List String :=
  (splitDollarList s.data).map String.mk

/-- `hash_password` (crud.py lines 9-13): salt = `secrets.token_hex(16)`
(the 16 drawn bytes are the `saltBytes` parameter), derived key =
`hashlib.pbkdf2_hmac('sha256', password, salt, 100000)`, result
`f"{salt}${password_hash.hex()}"`. Total: never raises for any string. -/
def hash_password (kdf : String → String → String → Nat → List Nat)
    (saltBytes : List Nat) (password : String) : String :=
  let salt := bytesToHex saltBytes
  let password_hash := kdf "sha256" password salt 100000
  salt ++ "$" ++ bytesToHex password_hash

/-- A Python exception relevant to the embedded code. -/
inductive PyErr where
  | valueError
  | integrityError
deriving Repr, DecidableEq

/-- The body of the `try:` block of `verify_password` (crud.py lines 18-20).
`salt, hashed = password_hash.split('$')` raises `ValueError` unless the
split yields exactly two segments; the comparison itself cannot raise. -/
def verify_password_body (kdf : String → String → String → Nat → List Nat)
    (password password_hash : String) : Except PyErr Bool :=
  match pySplitDollar password_hash with
  | [salt, hashed] =>
      .ok (bytesToHex (kdf "sha256" password salt 100000) == hashed)
  | _ => .error .valueError

/-- `verify_password` (crud.py lines 16-22): the bare `except:` catches any
exception of the body and returns `False`, so the function is total and
Boolean-valued. -/
def verify_password (kdf : String → String → String → Nat → List Nat)
    (password password_hash : String) : Bool :=
  match verify_password_body kdf password password_hash with
  | .ok b => b
  | .error _ => false

/-! ### Hasher lemmas -/

theorem hexDigit_mem_of_lt {n : Nat} (h : n < 16) : hexDigit n ∈ hexCharList := by
  interval_cases n <;> decide

theorem hexDigit_ne_dollar {n : Nat} (h : n < 16) : hexDigit n ≠ '$' := by
  intro he
  have hm := hexDigit_mem_of_lt h
  rw [he] at hm
  exact absurd hm (by decide)

theorem dollar_not_mem_bytesToHexChars {bs : List Nat}
    (hb : ∀ b ∈ bs, b < 256) : '$' ∉ bytesToHexChars bs := by
  intro hmem
  simp only [bytesToHexChars, List.mem_flatten, List.mem_map] at hmem
  obtain ⟨l, ⟨b, hbmem, rfl⟩, hcl⟩ := hmem
  have h256 := hb b hbmem
  have h1 : b / 16 < 16 := Nat.div_lt_of_lt_mul (by omega)
  have h2 : b % 16 < 16 := Nat.mod_lt _ (by omega)
  simp only [byteToHexChars, List.mem_cons, List.not_mem_nil, or_false] at hcl
  rcases hcl with hcl | hcl
  · exact hexDigit_ne_dollar h1 hcl.symm
  · exact hexDigit_ne_dollar h2 hcl.symm

theorem splitDollarList_of_not_mem {l : List Char} (h : '$' ∉ l) :
    splitDollarList l = [l] := by
  induction l with
  | nil => rfl
  | cons c cs ih =>
    simp only [List.mem_cons, not_or] at h
    rw [splitDollarList, if_neg (fun hc => h.1 hc.symm), ih h.2]

theorem splitDollarList_append {xs ys : List Char} (h : '$' ∉ xs) :
    splitDollarList (xs ++ '$' :: ys) = xs :: splitDollarList ys := by
  induction xs with
  | nil => simp [splitDollarList]
  | cons c cs ih =>
    simp only [List.mem_cons, not_or] at h
    rw [List.cons_append, splitDollarList, if_neg (fun hc => h.1 hc.symm),
      ih h.2]

theorem length_splitDollarList (l : List Char) :
    (splitDollarList l).length = l.count '$' + 1 := by
  induction l with
  | nil => rfl
  | cons c cs ih =>
    by_cases hc : c = '$'
    · subst hc
      rw [splitDollarList, if_pos rfl]
      simp [ih, List.count_cons]
    · rw [splitDollarList, if_neg hc]
      have hne : splitDollarList cs ≠ [] := by
        intro hnil
        rw [hnil] at ih
        simp at ih
      match hsp : splitDollarList cs with
      | [] => exact absurd hsp hne
      | h :: t =>
        rw [hsp] at ih
        simp only [List.length_cons] at ih ⊢
        rw [List.count_cons]
        simp only [beq_iff_eq]
        rw [if_neg (fun hcc => hc hcc)]
        omega

theorem data_hash_password (kdf : String → String → String → Nat → List Nat)
    (saltBytes : List Nat) (password : String) :
    (hash_password kdf saltBytes password).data =
      bytesToHexChars saltBytes ++ '$' ::
        bytesToHexChars (kdf "sha256" password (bytesToHex saltBytes) 100000) := by
  show (bytesToHex saltBytes ++ "$" ++ _).data = _
  rw [String.data_append, String.data_append]
  show bytesToHexChars saltBytes ++ "$".data ++ bytesToHexChars _ = _
  rw [List.append_assoc]
  rfl

theorem pySplitDollar_hash_password
    (kdf : String → String → String → Nat → List Nat)
    (hk : ∀ a p s i, ∀ b ∈ kdf a p s i, b < 256)
    (saltBytes : List Nat) (hs : ∀ b ∈ saltBytes, b < 256) (password : String) :
    pySplitDollar (hash_password kdf saltBytes password) =
      [bytesToHex saltBytes,
       bytesToHex (kdf "sha256" password (bytesToHex saltBytes) 100000)] := by
  unfold pySplitDollar
  rw [data_hash_password, splitDollarList_append
    (dollar_not_mem_bytesToHexChars hs),
    splitDollarList_of_not_mem
    (dollar_not_mem_bytesToHexChars (hk _ _ _ _))]
  rfl

theorem mem_hexCharList_of_mem_bytesToHexChars {bs : List Nat}
    (hb : ∀ b ∈ bs, b < 256) {c : Char} (hc : c ∈ bytesToHexChars bs) :
    c ∈ hexCharList := by
  simp only [bytesToHexChars, List.mem_flatten, List.mem_map] at hc
  obtain ⟨l, ⟨b, hbmem, rfl⟩, hcl⟩ := hc
  have h256 := hb b hbmem
  have h1 : b / 16 < 16 := Nat.div_lt_of_lt_mul (by omega)
  have h2 : b % 16 < 16 := Nat.mod_lt _ (by omega)
  simp only [byteToHexChars, List.mem_cons, List.not_mem_nil, or_false] at hcl
  rcases hcl with rfl | rfl
  · exact hexDigit_mem_of_lt h1
  · exact hexDigit_mem_of_lt h2

theorem length_bytesToHexChars (bs : List Nat) :
    (bytesToHexChars bs).length = 2 * bs.length := by
  induction bs with
  | nil => rfl
  | cons b bs ih =>
    show (byteToHexChars b ++ bytesToHexChars bs).length = 2 * (bs.length + 1)
    rw [List.length_append, ih]
    have hb2 : (byteToHexChars b).length = 2 := rfl
    omega

theorem hexDigit_inj_bounded :
    ∀ m < 16, ∀ n < 16, hexDigit m = hexDigit n → m = n := by decide

theorem bytesToHexChars_inj :
    ∀ {xs ys : List Nat}, (∀ b ∈ xs, b < 256) → (∀ b ∈ ys, b < 256) →
      bytesToHexChars xs = bytesToHexChars ys → xs = ys := by
  intro xs
  induction xs with
  | nil =>
    intro ys _ _ h
    cases ys with
    | nil => rfl
    | cons y ys =>
      exact absurd (congrArg List.length h)
        (by simp [length_bytesToHexChars])
  | cons x xs ih =>
    intro ys hx hy h
    cases ys with
    | nil =>
      exact absurd (congrArg List.length h)
        (by simp [length_bytesToHexChars])
    | cons y ys =>
      have hx0 : x < 256 := hx x (by simp)
      have hy0 : y < 256 := hy y (by simp)
      have hx1 : x / 16 < 16 := Nat.div_lt_of_lt_mul (by omega)
      have hy1 : y / 16 < 16 := Nat.div_lt_of_lt_mul (by omega)
      have hx2 : x % 16 < 16 := Nat.mod_lt _ (by omega)
      have hy2 : y % 16 < 16 := Nat.mod_lt _ (by omega)
      have hcons : hexDigit (x / 16) :: hexDigit (x % 16) :: bytesToHexChars xs
          = hexDigit (y / 16) :: hexDigit (y % 16) :: bytesToHexChars ys := h
      have e1 := hexDigit_inj_bounded _ hx1 _ hy1 (List.head_eq_of_cons_eq hcons)
      have hcons2 := List.tail_eq_of_cons_eq hcons
      have e2 := hexDigit_inj_bounded _ hx2 _ hy2 (List.head_eq_of_cons_eq hcons2)
      have e3 : xs = ys :=
        ih (fun b hb => hx b (List.mem_cons_of_mem _ hb))
          (fun b hb => hy b (List.mem_cons_of_mem _ hb))
          (List.tail_eq_of_cons_eq hcons2)
      have exy : x = y := by
        have dx := Nat.div_add_mod x 16
        have dy := Nat.div_add_mod y 16
        omega
      rw [exy, e3]

/-- Shared roundtrip lemma: recomputing the digest from the salt segment of a
freshly hashed password reproduces the stored digest. -/
theorem verify_hash_aux (kdf : String → String → String → Nat → List Nat)
    (hk : ∀ a p s i, ∀ b ∈ kdf a p s i, b < 256)
    (saltBytes : List Nat) (hs : ∀ b ∈ saltBytes, b < 256) (password : String) :
    verify_password kdf password (hash_password kdf saltBytes password) = true := by
  unfold verify_password verify_password_body
  rw [pySplitDollar_hash_password kdf hk saltBytes hs password]
  simp

/-- A concrete stand-in for `hashlib.pbkdf2_hmac` used by the witnesses: any
function returning a byte string is admissible for the hypotheses of the
hasher theorems. -/
def kdfW (_ : String) (_ : String) (_ : String) (_ : Nat) : List Nat :=
  [0, 171, 255, 16]

theorem kdfW_bytes : ∀ a p s i, ∀ b ∈ kdfW a p s i, b < 256 := by
  intro a p s i b hb
  simp [kdfW] at hb
  omega

/-- C1: for every password `p` and every salt the hasher may generate
(any list of bytes, in particular the 16 random bytes of
`secrets.token_hex(16)`), `verify_password p (hash_password p) = true`. -/
theorem C1_verify_hash_roundtrip
    (kdf : String → String → String → Nat → List Nat)
    (hk : ∀ a p s i, ∀ b ∈ kdf a p s i, b < 256)
    (saltBytes : List Nat) (hs : ∀ b ∈ saltBytes, b < 256) (password : String) :
    verify_password kdf password (hash_password kdf saltBytes password) = true :=
  verify_hash_aux kdf hk saltBytes hs password

/-- Witness for C1 at a concrete derivation function, salt and password. -/
theorem C1_verify_hash_roundtrip_witness :
    verify_password kdfW "hunter2"
      (hash_password kdfW [0, 1, 2, 3, 4, 5, 6, 7, 8, 9, 10, 11, 12, 13, 14, 15]
        "hunter2") = true :=
  C1_verify_hash_roundtrip kdfW kdfW_bytes
    [0, 1, 2, 3, 4, 5, 6, 7, 8, 9, 10, 11, 12, 13, 14, 15] (by decide) "hunter2"

theorem length_pySplitDollar (s : String) :
    (pySplitDollar s).length = s.data.count '$' + 1 := by
  unfold pySplitDollar
  rw [List.length_map, length_splitDollarList]

/-- A concrete 16-byte salt for the witnesses. -/
def saltW : List Nat :=
  [0, 1, 2, 3, 4, 5, 6, 7, 8, 9, 10, 11, 12, 13, 14, 15]

/-- A second, distinct concrete 16-byte salt for the witnesses. -/
def saltW2 : List Nat :=
  [255, 1, 2, 3, 4, 5, 6, 7, 8, 9, 10, 11, 12, 13, 14, 15]

/-- C4 counterexample: a stored value whose salt segment is the non-hex
`zz` — "non-hex content", hence malformed — nonetheless verifies true
against the password it was built from: `verify_password` never hex-decodes
the salt segment, it only feeds it back into the derivation, so the
recomputed digest matches the stored one. -/
theorem C4_nonhex_salt_counterexample :
    pySplitDollar ("zz$" ++ bytesToHex (kdfW "sha256" "pw" "zz" 100000))
      = ["zz", bytesToHex (kdfW "sha256" "pw" "zz" 100000)] ∧
    'z' ∉ hexCharList ∧
    verify_password kdfW "pw"
      ("zz$" ++ bytesToHex (kdfW "sha256" "pw" "zz" 100000)) = true := by
  refine ⟨by decide, by decide, by decide⟩

/-- C4 amended: `verify_password` never raises — the bare `except:` maps any
raised error of the body to `false`, so the function is a total Boolean
function — and it returns `false` when the number of `$` separators is not
exactly one (no `$`, or more or fewer than two segments) and when the digest
segment of a two-segment split contains a character outside the lowercase
hex alphabet. Non-hex content in the salt segment is not rejected: the salt
is never hex-decoded, so such a stored value can still verify true. -/
theorem C4_verify_total_malformed
    (kdf : String → String → String → Nat → List Nat)
    (hk : ∀ a p s i, ∀ b ∈ kdf a p s i, b < 256)
    (password stored : String) :
    (∀ e, verify_password_body kdf password stored = .error e →
      verify_password kdf password stored = false) ∧
    (stored.data.count '$' ≠ 1 → verify_password kdf password stored = false) ∧
    (∀ salt hashed, pySplitDollar stored = [salt, hashed] →
      (∃ c ∈ hashed.data, c ∉ hexCharList) →
      verify_password kdf password stored = false) := by
  refine ⟨?_, ?_, ?_⟩
  · intro e he
    unfold verify_password
    rw [he]
  · intro hcnt
    have hlen := length_pySplitDollar stored
    unfold verify_password verify_password_body
    rcases hsp : pySplitDollar stored with _ | ⟨a, _ | ⟨b, _ | ⟨c, t⟩⟩⟩ <;>
      simp_all
  · intro salt hashed hsp hbad
    obtain ⟨c, hcmem, hchex⟩ := hbad
    unfold verify_password verify_password_body
    rw [hsp]
    have hne : bytesToHex (kdf "sha256" password salt 100000) ≠ hashed := by
      intro heq
      apply hchex
      apply mem_hexCharList_of_mem_bytesToHexChars (hk "sha256" password salt 100000)
      have : hashed.data = bytesToHexChars (kdf "sha256" password salt 100000) := by
        rw [← heq]
        rfl
      rw [← this]
      exact hcmem
    simp [hne]

/-- Witness for C4: a stored value with no `$` separator yields `false`. -/
theorem C4_verify_total_malformed_witness :
    verify_password kdfW "pw" "deadbeef" = false :=
  (C4_verify_total_malformed kdfW kdfW_bytes "pw" "deadbeef").2.1 (by decide)

/-- C8: the stored string produced by `hash_password` is
`salt ++ "$" ++ digest` where `salt` is the 32-character hex encoding of the
16 generated salt bytes and `digest` is the hex encoding of the key derived
by the external primitive at algorithm `"sha256"` and 100000 iterations; the
result contains exactly one `$`. `hash_password` is a total Lean function,
modelling that it never raises for any string input. -/
theorem C8_hash_password_format
    (kdf : String → String → String → Nat → List Nat)
    (hk : ∀ a p s i, ∀ b ∈ kdf a p s i, b < 256)
    (saltBytes : List Nat) (hlen : saltBytes.length = 16)
    (hs : ∀ b ∈ saltBytes, b < 256) (password : String) :
    hash_password kdf saltBytes password =
      bytesToHex saltBytes ++ "$" ++
        bytesToHex (kdf "sha256" password (bytesToHex saltBytes) 100000) ∧
    (bytesToHex saltBytes).length = 32 ∧
    (hash_password kdf saltBytes password).data.count '$' = 1 := by
  refine ⟨rfl, ?_, ?_⟩
  · show (bytesToHexChars saltBytes).length = 32
    rw [length_bytesToHexChars, hlen]
  · rw [data_hash_password]
    have c1 : (bytesToHexChars saltBytes).count '$' = 0 :=
      List.count_eq_zero.mpr (dollar_not_mem_bytesToHexChars hs)
    have c2 : (bytesToHexChars
        (kdf "sha256" password (bytesToHex saltBytes) 100000)).count '$' = 0 :=
      List.count_eq_zero.mpr (dollar_not_mem_bytesToHexChars (hk _ _ _ _))
    simp [List.count_append, List.count_cons, c1, c2]

/-- Witness for C8 at a concrete derivation function, salt and password. -/
theorem C8_hash_password_format_witness :
    hash_password kdfW saltW "pw" =
      bytesToHex saltW ++ "$" ++
        bytesToHex (kdfW "sha256" "pw" (bytesToHex saltW) 100000) ∧
    (bytesToHex saltW).length = 32 ∧
    (hash_password kdfW saltW "pw").data.count '$' = 1 :=
  C8_hash_password_format kdfW kdfW_bytes saltW (by decide) (by decide) "pw"

/-- C9: two calls of `hash_password` on the same password with distinct
generated salts produce distinct stored strings, and the password verifies
against both. -/
theorem C9_hash_nondeterministic
    (kdf : String → String → String → Nat → List Nat)
    (hk : ∀ a p s i, ∀ b ∈ kdf a p s i, b < 256)
    (s1 s2 : List Nat) (h1 : ∀ b ∈ s1, b < 256) (h2 : ∀ b ∈ s2, b < 256)
    (hne : s1 ≠ s2) (password : String) :
    hash_password kdf s1 password ≠ hash_password kdf s2 password ∧
    verify_password kdf password (hash_password kdf s1 password) = true ∧
    verify_password kdf password (hash_password kdf s2 password) = true := by
  refine ⟨?_, verify_hash_aux kdf hk s1 h1 password,
    verify_hash_aux kdf hk s2 h2 password⟩
  intro heq
  have hd : (hash_password kdf s1 password).data
      = (hash_password kdf s2 password).data := by rw [heq]
  rw [data_hash_password, data_hash_password] at hd
  have hsplit := congrArg splitDollarList hd
  rw [splitDollarList_append (dollar_not_mem_bytesToHexChars h1),
    splitDollarList_append (dollar_not_mem_bytesToHexChars h2)] at hsplit
  exact hne (bytesToHexChars_inj h1 h2 (List.head_eq_of_cons_eq hsplit))

/-- Witness for C9 at two concrete distinct salts. -/
theorem C9_hash_nondeterministic_witness :
    hash_password kdfW saltW "pw" ≠ hash_password kdfW saltW2 "pw" ∧
    verify_password kdfW "pw" (hash_password kdfW saltW "pw") = true ∧
    verify_password kdfW "pw" (hash_password kdfW saltW2 "pw") = true :=
  C9_hash_nondeterministic kdfW kdfW_bytes saltW saltW2
    (by decide) (by decide) (by decide) "pw"

/-! ## Entity store (src/db/models.py) and schemas (src/db/schemas.py)

Timestamps are abstract clock ticks (`Nat`); `DB.now` is the value
`utc_now()` returns during the current operation. A pydantic field with
`exclude_unset` semantics is `Option (Option α)`: the outer layer records
whether the caller supplied the field, the inner layer is the supplied value,
which may itself be null. -/

/-- A row of the `users` table (models.py lines 11-31). -/
structure UserRow where
  id : Nat
  email : String
  full_name : Option String
  password_hash : String
  is_active : Bool
  created_at : Nat
  updated_at : Nat
deriving Repr, DecidableEq

/-- A row of the `user_profiles` table (models.py lines 34-53). -/
structure ProfileRow where
  id : Nat
  user_id : Nat
  phone : Option String
  city : Option String
  country : Option String
  timezone : Option String
  created_at : Nat
  updated_at : Nat
deriving Repr, DecidableEq

/-- The relational store: the two tables in natural (insertion) order, the
autoincrement counters for the two primary keys, and the current clock. -/
structure DB where
  users : List UserRow
  profiles : List ProfileRow
  nextUserId : Nat
  nextProfileId : Nat
  now : Nat
deriving Repr, DecidableEq

/-- `schemas.UserCreate`. -/
structure UserCreate where
  email : String
  full_name : Option String
  password : String
deriving Repr, DecidableEq

/-- `schemas.UserUpdate`: every field optional and presence-tracked
(`model_dump(exclude_unset=True)` returns exactly the supplied fields; a
supplied field may carry an explicit null). -/
structure UserUpdate where
  email : Option (Option String)
  full_name : Option (Option String)
  is_active : Option (Option Bool)
deriving Repr, DecidableEq

/-- `schemas.UserProfileCreate`: four optional presence-tracked fields. -/
structure UserProfileCreate where
  phone : Option (Option String)
  city : Option (Option String)
  country : Option (Option String)
  timezone : Option (Option String)
deriving Repr, DecidableEq

/-! ## Repository operations (src/db/crud.py lines 26-127)

An operation returns its Python return value together with the store it
leaves behind. A raised-and-uncaught exception is an `Except.error`; by the
rollback-on-conflict pattern the store component is then the unchanged input
store. SQLAlchemy only issues an UPDATE for a row whose net attribute
history is non-empty, so `updated_at` (an `onupdate` column) is refreshed
exactly when some column value actually changed. -/

/-- `get_user` (crud.py lines 43-45): `filter(User.id == user_id).first()`. -/
def get_user (db : DB) (user_id : Nat) : Option UserRow :=
  db.users.find? (fun u => u.id == user_id)

/-- `get_user_by_email` (crud.py lines 48-50). -/
def get_user_by_email (db : DB) (email : String) : Option UserRow :=
  db.users.find? (fun u => u.email == email)

/-- `get_users` (crud.py lines 53-55): `offset(skip).limit(limit)` over the
natural order. -/
def get_users (db : DB) (skip : Nat) (limit : Nat) : List UserRow :=
  (db.users.drop skip).take limit

/-- `create_user` (crud.py lines 26-40): build the row (`is_active` defaults
true, both timestamps default `utc_now()`), insert, commit. The commit
raises `IntegrityError` exactly when the unique constraint on `email` is
violated, i.e. when another row already holds this email; the handler rolls
the transaction back and re-raises. -/
def create_user (kdf : String → String → String → Nat → List Nat)
    (saltBytes : List Nat) (db : DB) (user : UserCreate) :
    Except PyErr UserRow × DB :=
  let db_user : UserRow :=
    { id := db.nextUserId
      email := user.email
      full_name := user.full_name
      password_hash := hash_password kdf saltBytes user.password
      is_active := true
      created_at := db.now
      updated_at := db.now }
  if db.users.any (fun v => v.email == user.email) then
    (.error .integrityError, db)
  else
    (.ok db_user,
      { db with users := db.users ++ [db_user], nextUserId := db.nextUserId + 1 })

/-- `update_user` (crud.py lines 58-75): fetch the row (`None` when absent),
assign exactly the supplied fields, commit. The commit issues an UPDATE only
for the columns whose value actually changed; it raises `IntegrityError`
exactly when the email column changes to a value held by another row
(unique constraint) or a non-nullable column (`email`, `is_active`) was
assigned an explicit null. On `IntegrityError` the transaction is rolled
back and the function returns `None`. -/
def update_user (db : DB) (user_id : Nat) (p : UserUpdate) :
    Option UserRow × DB :=
  match get_user db user_id with
  | none => (none, db)
  | some u =>
    let newEmail : Option String :=
      match p.email with
      | none => some u.email
      | some v => v
    let newFull : Option String :=
      match p.full_name with
      | none => u.full_name
      | some v => v
    let newActive : Option Bool :=
      match p.is_active with
      | none => some u.is_active
      | some v => v
    match newEmail, newActive with
    | some e, some a =>
      if (e != u.email) && db.users.any (fun v => (v.id != u.id) && (v.email == e)) then
        (none, db)
      else
        let changed : Bool :=
          (e != u.email) || (newFull != u.full_name) || (a != u.is_active)
        let u' : UserRow :=
          { u with
            email := e
            full_name := newFull
            is_active := a
            updated_at := if changed then db.now else u.updated_at }
        if changed then
          (some u',
            { db with users := db.users.map (fun v => if v.id == u.id then u' else v) })
        else
          (some u', db)
    | _, _ => (none, db)

/-- `delete_user` (crud.py lines 78-85): `False` when the row is absent;
otherwise delete it and, through the `all, delete-orphan` cascade of the
`User.profile` relationship (models.py lines 27-31), the profile rows whose
`user_id` references it. -/
def delete_user (db : DB) (user_id : Nat) : Bool × DB :=
  match get_user db user_id with
  | none => (false, db)
  | some u =>
    (true,
      { db with
        users := db.users.filter (fun v => v.id != u.id)
        profiles := db.profiles.filter (fun pr => pr.user_id != u.id) })

/-- `get_user_profile` (crud.py lines 113-117). -/
def get_user_profile (db : DB) (user_id : Nat) : Option ProfileRow :=
  db.profiles.find? (fun pr => pr.user_id == user_id)

/-- `create_user_profile` (crud.py lines 89-110): if a profile row for
`user_id` exists, assign exactly the supplied fields onto it (merge);
otherwise insert a fresh row built from the full dump, where an unsupplied
field contributes its default `None`. In this sequential model the commit
cannot raise: the uniqueness of `user_id` was just checked, and the SQLite
store configured in `session.py` does not enforce foreign keys. -/
def create_user_profile (db : DB) (user_id : Nat) (p : UserProfileCreate) :
    Option ProfileRow × DB :=
  match db.profiles.find? (fun pr => pr.user_id == user_id) with
  | some dp =>
    let newPhone := match p.phone with | none => dp.phone | some v => v
    let newCity := match p.city with | none => dp.city | some v => v
    let newCountry := match p.country with | none => dp.country | some v => v
    let newTimezone := match p.timezone with | none => dp.timezone | some v => v
    let changed : Bool :=
      (newPhone != dp.phone) || (newCity != dp.city) ||
        (newCountry != dp.country) || (newTimezone != dp.timezone)
    let dp' : ProfileRow :=
      { dp with
        phone := newPhone
        city := newCity
        country := newCountry
        timezone := newTimezone
        updated_at := if changed then db.now else dp.updated_at }
    if changed then
      (some dp',
        { db with profiles := db.profiles.map (fun q => if q.id == dp.id then dp' else q) })
    else
      (some dp', db)
  | none =>
    let row : ProfileRow :=
      { id := db.nextProfileId
        user_id := user_id
        phone := p.phone.getD none
        city := p.city.getD none
        country := p.country.getD none
        timezone := p.timezone.getD none
        created_at := db.now
        updated_at := db.now }
    (some row,
      { db with
        profiles := db.profiles ++ [row]
        nextProfileId := db.nextProfileId + 1 })

/-- `delete_user_profile` (crud.py lines 120-127). -/
def delete_user_profile (db : DB) (user_id : Nat) : Bool × DB :=
  match get_user_profile db user_id with
  | none => (false, db)
  | some dp =>
    (true, { db with profiles := db.profiles.filter (fun pr => pr.user_id != dp.user_id) })

/-! ## Request handlers (src/fastapi.py)

A handler's outcome is either a success payload with its status code, an
`HTTPException` with its status code, or an exception that escaped the
handler unhandled. -/

/-- The observable outcome of one request handler. -/
inductive HttpResult (α : Type) where
  | ok (code : Nat) (val : α)
  | httpError (code : Nat)
  | unhandled (e : PyErr)
deriving Repr, DecidableEq

/-- The `POST /users` handler (fastapi.py lines 35-44). The store is read
twice — once by the pre-check and once by the insert — and a concurrent
writer may commit in between, so the two reads are modelled by two store
states `dbCheck` (seen by `get_user_by_email`) and `dbInsert` (seen by
`create_user`); the sequential case is `dbCheck = dbInsert`. The handler
catches no exception: whatever `crud.create_user` raises escapes. -/
def create_user_endpoint (kdf : String → String → String → Nat → List Nat)
    (saltBytes : List Nat) (dbCheck dbInsert : DB) (user : UserCreate) :
    HttpResult UserRow × DB :=
  match get_user_by_email dbCheck user.email with
  | some _ => (.httpError 400, dbInsert)
  | none =>
    match create_user kdf saltBytes dbInsert user with
    | (.ok u, db') => (.ok 201 u, db')
    | (.error e, db') => (.unhandled e, db')

/-- The `PATCH /users/{user_id}` handler (fastapi.py lines 66-75): a `None`
from `crud.update_user` — whether the row was absent or the commit conflicted
— becomes HTTP 404 "User not found". -/
def update_user_endpoint (db : DB) (user_id : Nat) (p : UserUpdate) :
    HttpResult UserRow × DB :=
  match update_user db user_id p with
  | (some u, db') => (.ok 200 u, db')
  | (none, db') => (.httpError 404, db')

/-- The `GET /users/{user_id}/profile` handler (fastapi.py lines 109-125). -/
def get_profile_endpoint (db : DB) (user_id : Nat) : HttpResult ProfileRow :=
  match get_user db user_id with
  | none => .httpError 404
  | some _ =>
    match get_user_profile db user_id with
    | none => .httpError 404
    | some dp => .ok 200 dp

/-! ## Concrete stores for witnesses and counterexamples -/

def userW1 : UserRow :=
  { id := 1, email := "a@x.com", full_name := some "Ann", password_hash := "s$d",
    is_active := true, created_at := 0, updated_at := 0 }

def userW2 : UserRow :=
  { id := 2, email := "b@x.com", full_name := none, password_hash := "s$d",
    is_active := true, created_at := 0, updated_at := 0 }

def profW1 : ProfileRow :=
  { id := 1, user_id := 1, phone := some "123", city := none, country := none,
    timezone := none, created_at := 0, updated_at := 0 }

/-- A store with two users and a profile for user 1. -/
def dbW : DB :=
  { users := [userW1, userW2], profiles := [profW1],
    nextUserId := 3, nextProfileId := 2, now := 5 }

/-- The empty store. -/
def dbE : DB :=
  { users := [], profiles := [], nextUserId := 1, nextProfileId := 1, now := 0 }

/-! ## Claims about the repository operations -/

/-- C2 counterexample: with the store empty at the pre-check but holding the
email at insert time (the check-then-act race), the `POST /users` handler
ends in an unhandled `IntegrityError`, not in its 400 conflict response. -/
theorem C2_race_counterexample :
    (create_user_endpoint kdfW saltW dbE dbW
        { email := "a@x.com", full_name := none, password := "pw" }).1
      = HttpResult.unhandled PyErr.integrityError ∧
    (create_user_endpoint kdfW saltW dbE dbW
        { email := "a@x.com", full_name := none, password := "pw" }).1
      ≠ HttpResult.httpError 400 := by
  exact ⟨rfl, by decide⟩

/-- C2 amended: the insert-time uniqueness violation is caught at the
repository layer, which rolls the transaction back (the store comes back
unchanged) and re-raises `IntegrityError`; the `POST /users` handler does not
translate it, so the race surfaces to the caller as an unhandled
`IntegrityError` rather than as the 400 conflict response, which only the
pre-check produces. -/
theorem C2_race_rollback_reraise
    (kdf : String → String → String → Nat → List Nat) (saltBytes : List Nat)
    (dbCheck dbInsert : DB) (user : UserCreate)
    (hc : get_user_by_email dbCheck user.email = none)
    (hi : dbInsert.users.any (fun v => v.email == user.email) = true) :
    create_user kdf saltBytes dbInsert user = (.error .integrityError, dbInsert) ∧
    create_user_endpoint kdf saltBytes dbCheck dbInsert user
      = (.unhandled .integrityError, dbInsert) := by
  have h1 : create_user kdf saltBytes dbInsert user
      = (.error .integrityError, dbInsert) := by
    simp [create_user, hi]
  refine ⟨h1, ?_⟩
  unfold create_user_endpoint
  rw [hc, h1]

/-- Witness for the amended C2 at the concrete racing stores. -/
theorem C2_race_rollback_reraise_witness :
    create_user kdfW saltW dbW
        { email := "a@x.com", full_name := none, password := "pw" }
      = (.error .integrityError, dbW) ∧
    create_user_endpoint kdfW saltW dbE dbW
        { email := "a@x.com", full_name := none, password := "pw" }
      = (.unhandled .integrityError, dbW) :=
  C2_race_rollback_reraise kdfW saltW dbE dbW
    { email := "a@x.com", full_name := none, password := "pw" } rfl rfl

/-- C3 counterexample: in a store with users 1 (`a@x.com`) and 2
(`b@x.com`), patching user 1's email to `b@x.com` makes `update_user`
return `None`, which the `PATCH /users/{id}` handler answers with
404 Not Found — the very same outcome as for an absent user id, so the
conflict is not reported as an outcome distinct from NotFound. -/
theorem C3_conflict_counterexample :
    update_user_endpoint dbW 1
        { email := some (some "b@x.com"), full_name := none, is_active := none }
      = (HttpResult.httpError 404, dbW) ∧
    update_user_endpoint dbW 999
        { email := some (some "b@x.com"), full_name := none, is_active := none }
      = (HttpResult.httpError 404, dbW) := by
  exact ⟨rfl, rfl⟩

/-- C3 amended: when the patch sets the email to a value held by a different
user, `update_user` hits the store's uniqueness violation at commit, rolls
back and returns `None`, leaving the targeted row and the whole store
unchanged; the handler reports this `None` as 404 NotFound, the same outcome
as an absent user, not as a distinct ConflictError. -/
theorem C3_conflict_rollback_notfound
    (db : DB) (user_id : Nat) (p : UserUpdate) (u : UserRow)
    (hu : get_user db user_id = some u)
    (e : String) (he : p.email = some (some e)) (heu : e ≠ u.email)
    (v : UserRow) (hv : v ∈ db.users) (hvid : v.id ≠ u.id) (hve : v.email = e) :
    update_user db user_id p = (none, db) ∧
    update_user_endpoint db user_id p = (.httpError 404, db) := by
  have hg : ((e != u.email)
      && db.users.any (fun w => (w.id != u.id) && (w.email == e))) = true := by
    rw [Bool.and_eq_true]
    constructor
    · exact bne_iff_ne.mpr heu
    · exact List.any_eq_true.mpr ⟨v, hv, by
        rw [Bool.and_eq_true]
        exact ⟨bne_iff_ne.mpr hvid, beq_iff_eq.mpr hve⟩⟩
  have h1 : update_user db user_id p = (none, db) := by
    simp only [update_user, hu, he]
    cases ha : p.is_active with
    | none => simp [hg]
    | some b =>
      cases b with
      | none => simp
      | some bb => simp [hg]
  refine ⟨h1, ?_⟩
  unfold update_user_endpoint
  rw [h1]

/-- Witness for the amended C3 at the concrete store. -/
theorem C3_conflict_rollback_notfound_witness :
    update_user dbW 1
        { email := some (some "b@x.com"), full_name := none, is_active := none }
      = (none, dbW) ∧
    update_user_endpoint dbW 1
        { email := some (some "b@x.com"), full_name := none, is_active := none }
      = (.httpError 404, dbW) :=
  C3_conflict_rollback_notfound dbW 1
    { email := some (some "b@x.com"), full_name := none, is_active := none }
    userW1 rfl "b@x.com" rfl (by decide) userW2 (by decide) (by decide) rfl

theorem find?_filter_none {α : Type} (l : List α) (p q : α → Bool)
    (h : ∀ x, q x = true → p x = false) : (l.filter q).find? p = none := by
  rw [List.find?_eq_none]
  intro x hx hpx
  rw [List.mem_filter] at hx
  rw [h x hx.2] at hpx
  exact Bool.false_ne_true hpx

/-- C6: `delete_user` returns false and leaves the store unchanged when no
such user exists; when the user exists it returns true, removes the user
row, and the `all, delete-orphan` cascade removes the user's profile, so
`get_user_profile` afterwards finds nothing. -/
theorem C6_delete_user_cascade (db : DB) (user_id : Nat) :
    (get_user db user_id = none → delete_user db user_id = (false, db)) ∧
    (∀ u, get_user db user_id = some u →
      (delete_user db user_id).1 = true ∧
      get_user (delete_user db user_id).2 user_id = none ∧
      get_user_profile (delete_user db user_id).2 user_id = none) := by
  constructor
  · intro hnone
    unfold delete_user
    rw [hnone]
  · intro u hu
    have hid : u.id = user_id := by
      have := List.find?_some hu
      exact beq_iff_eq.mp this
    have hdel : delete_user db user_id =
        (true,
          { db with
            users := db.users.filter (fun v => v.id != u.id)
            profiles := db.profiles.filter (fun pr => pr.user_id != u.id) }) := by
      unfold delete_user
      rw [hu]
    rw [hdel]
    refine ⟨rfl, ?_, ?_⟩
    · exact find?_filter_none db.users _ _ (by
        intro x hq
        rw [beq_eq_false_iff_ne]
        rw [bne_iff_ne, hid] at hq
        exact hq)
    · exact find?_filter_none db.profiles _ _ (by
        intro x hq
        rw [beq_eq_false_iff_ne]
        rw [bne_iff_ne, hid] at hq
        exact hq)

/-- Witness for C6 at the concrete store: absent id 999, present id 1. -/
theorem C6_delete_user_cascade_witness :
    delete_user dbW 999 = (false, dbW) ∧
    ((delete_user dbW 1).1 = true ∧
      get_user (delete_user dbW 1).2 1 = none ∧
      get_user_profile (delete_user dbW 1).2 1 = none) :=
  ⟨(C6_delete_user_cascade dbW 999).1 rfl,
   (C6_delete_user_cascade dbW 1).2 userW1 rfl⟩

/-- C10: a successful `create_user` inserts only the user row — the profile
table is untouched, despite the docstring "Create a new user with profile" —
so for the fresh id both `get_user_profile` and the
`GET /users/{id}/profile` handler report NotFound. The hypotheses are the
store invariants: every profile references an existing user and all user ids
are below the autoincrement counter. -/
theorem C10_create_user_no_profile
    (kdf : String → String → String → Nat → List Nat) (saltBytes : List Nat)
    (db : DB) (user : UserCreate)
    (hwf : ∀ pr ∈ db.profiles, ∃ v ∈ db.users, pr.user_id = v.id)
    (hids : ∀ v ∈ db.users, v.id < db.nextUserId)
    (r : UserRow) (db' : DB)
    (h : create_user kdf saltBytes db user = (.ok r, db')) :
    db'.profiles = db.profiles ∧
    get_user_profile db' r.id = none ∧
    get_profile_endpoint db' r.id = .httpError 404 := by
  unfold create_user at h
  split at h
  · exact absurd (congrArg Prod.fst h) (by simp)
  · rw [Prod.mk.injEq] at h
    obtain ⟨h1, h2⟩ := h
    have hr := Except.ok.inj h1
    subst hr
    subst h2
    have hnop : db.profiles.find? (fun pr => pr.user_id == db.nextUserId) = none := by
      rw [List.find?_eq_none]
      intro pr hpr hbeq
      obtain ⟨v, hv, hveq⟩ := hwf pr hpr
      have hlt := hids v hv
      have hne : pr.user_id ≠ db.nextUserId := by omega
      exact hne (beq_iff_eq.mp hbeq)
    have hleft : db.users.find? (fun u => u.id == db.nextUserId) = none := by
      rw [List.find?_eq_none]
      intro v hv hbeq
      have hlt := hids v hv
      have hne : v.id ≠ db.nextUserId := by omega
      exact hne (beq_iff_eq.mp hbeq)
    refine ⟨rfl, hnop, ?_⟩
    simp only [get_profile_endpoint, get_user, get_user_profile]
    rw [List.find?_append, hleft]
    simp [List.find?, hnop]

/-- The row `create_user` inserts into `dbW` for a fresh email, and the
store it leaves behind. -/
def userW3 : UserRow :=
  { id := 3, email := "c@x.com", full_name := some "Cy",
    password_hash := hash_password kdfW saltW "pw",
    is_active := true, created_at := 5, updated_at := 5 }

def dbWplus : DB :=
  { users := [userW1, userW2, userW3], profiles := [profW1],
    nextUserId := 4, nextProfileId := 2, now := 5 }

/-- Witness for C10 at the concrete store and a fresh email. -/
theorem C10_create_user_no_profile_witness :
    dbWplus.profiles = dbW.profiles ∧
    get_user_profile dbWplus userW3.id = none ∧
    get_profile_endpoint dbWplus userW3.id = .httpError 404 :=
  C10_create_user_no_profile kdfW saltW dbW
    { email := "c@x.com", full_name := some "Cy", password := "pw" }
    (by decide) (by decide) userW3 dbWplus rfl

/-- C5: `update_user` applies merge-patch semantics: on success exactly the
supplied fields carry the supplied values, unsupplied fields keep their
prior values, and the non-patchable columns `id`, `password_hash` and
`created_at` are untouched; with an empty partial-field set the call
succeeds and returns the row and the store entirely unchanged
(`updated_at` included, since a clean commit issues no UPDATE). -/
theorem C5_update_user_merge_patch :
    (∀ db user_id p u u' db',
      get_user db user_id = some u →
      update_user db user_id p = (some u', db') →
      (p.email = none → u'.email = u.email) ∧
      (∀ v, p.email = some v → v = some u'.email) ∧
      (p.full_name = none → u'.full_name = u.full_name) ∧
      (∀ v, p.full_name = some v → u'.full_name = v) ∧
      (p.is_active = none → u'.is_active = u.is_active) ∧
      (∀ v, p.is_active = some v → v = some u'.is_active) ∧
      u'.id = u.id ∧ u'.password_hash = u.password_hash ∧
      u'.created_at = u.created_at) ∧
    (∀ db user_id u,
      get_user db user_id = some u →
      update_user db user_id { email := none, full_name := none, is_active := none }
        = (some u, db)) := by
  constructor
  · intro db user_id p u u' db' hu hupd
    obtain ⟨pe, pf, pa⟩ := p
    rcases pe with _ | ⟨_ | e⟩ <;> rcases pf with _ | pfv <;>
      rcases pa with _ | ⟨_ | a⟩ <;>
      simp only [update_user, hu] at hupd <;>
      (try split at hupd) <;> (try split at hupd) <;>
      rw [Prod.mk.injEq] at hupd <;>
      obtain ⟨h1, h2⟩ := hupd <;>
      first
        | exact Option.noConfusion h1
        | (replace h1 := Option.some.inj h1
           subst h1
           simp)
  · intro db user_id u hu
    simp [update_user, hu]

/-- The row and store left by patching user 1's email to the fresh
`c@x.com` in `dbW`. -/
def userW1c : UserRow :=
  { id := 1, email := "c@x.com", full_name := some "Ann", password_hash := "s$d",
    is_active := true, created_at := 0, updated_at := 5 }

def dbWc : DB :=
  { users := [userW1c, userW2], profiles := [profW1],
    nextUserId := 3, nextProfileId := 2, now := 5 }

/-- Witness for C5: a successful patch of `email` only keeps `full_name`
and `password_hash`, and the empty patch is a no-op. -/
theorem C5_update_user_merge_patch_witness :
    userW1c.full_name = userW1.full_name ∧
    userW1c.password_hash = userW1.password_hash ∧
    update_user dbW 1 { email := none, full_name := none, is_active := none }
      = (some userW1, dbW) := by
  refine ⟨?_, ?_, ?_⟩
  · exact (C5_update_user_merge_patch.1 dbW 1
      { email := some (some "c@x.com"), full_name := none, is_active := none }
      userW1 userW1c dbWc rfl rfl).2.2.1 rfl
  · exact (C5_update_user_merge_patch.1 dbW 1
      { email := some (some "c@x.com"), full_name := none, is_active := none }
      userW1 userW1c dbWc rfl rfl).2.2.2.2.2.2.2.1
  · exact C5_update_user_merge_patch.2 dbW 1 userW1 rfl

theorem find?_append_singleton {α : Type} (l : List α) (p : α → Bool) (a : α)
    (hl : l.find? p = none) (ha : p a = true) : (l ++ [a]).find? p = some a := by
  rw [List.find?_append, hl]
  simp [List.find?, ha]

/-- C7: `create_user_profile` merges when a profile row for the user already
exists — exactly the supplied fields are overwritten, while `id`, `user_id`
and `created_at` are untouched — and inserts a fresh row otherwise, so of
two successive calls the fields omitted by the second keep the values the
first call set. -/
theorem C7_create_user_profile_merge :
    (∀ db user_id p dp pr' db2,
      get_user_profile db user_id = some dp →
      create_user_profile db user_id p = (some pr', db2) →
      (p.phone = none → pr'.phone = dp.phone) ∧
      (∀ v, p.phone = some v → pr'.phone = v) ∧
      (p.city = none → pr'.city = dp.city) ∧
      (∀ v, p.city = some v → pr'.city = v) ∧
      (p.country = none → pr'.country = dp.country) ∧
      (∀ v, p.country = some v → pr'.country = v) ∧
      (p.timezone = none → pr'.timezone = dp.timezone) ∧
      (∀ v, p.timezone = some v → pr'.timezone = v) ∧
      pr'.id = dp.id ∧ pr'.user_id = dp.user_id ∧ pr'.created_at = dp.created_at) ∧
    (∀ db user_id p1 p2 pr1 db1 pr2 db2,
      get_user_profile db user_id = none →
      create_user_profile db user_id p1 = (some pr1, db1) →
      create_user_profile db1 user_id p2 = (some pr2, db2) →
      (p2.phone = none → pr2.phone = p1.phone.getD none) ∧
      (p2.city = none → pr2.city = p1.city.getD none) ∧
      (p2.country = none → pr2.country = p1.country.getD none) ∧
      (p2.timezone = none → pr2.timezone = p1.timezone.getD none)) := by
  constructor
  · intro db user_id p dp pr' db2 hdp hupd
    unfold get_user_profile at hdp
    obtain ⟨pp, pc, pco, pt⟩ := p
    rcases pp with _ | pv1 <;> rcases pc with _ | pv2 <;>
      rcases pco with _ | pv3 <;> rcases pt with _ | pv4 <;>
      simp only [create_user_profile, hdp] at hupd <;>
      (split at hupd <;>
        · rw [Prod.mk.injEq] at hupd
          obtain ⟨h1, h2⟩ := hupd
          have hr := (Option.some.inj h1).symm
          subst hr
          simp)
  · intro db user_id p1 p2 pr1 db1 pr2 db2 hnone h1c h2c
    unfold get_user_profile at hnone
    simp only [create_user_profile, hnone] at h1c
    rw [Prod.mk.injEq] at h1c
    obtain ⟨h1, h2⟩ := h1c
    have hr := (Option.some.inj h1).symm
    subst hr
    subst h2
    simp only [create_user_profile] at h2c
    rw [List.find?_append, hnone] at h2c
    simp only [Option.none_or, List.find?_cons, beq_self_eq_true, cond_true] at h2c
    obtain ⟨pp, pc, pco, pt⟩ := p2
    rcases pp with _ | pv1 <;> rcases pc with _ | pv2 <;>
      rcases pco with _ | pv3 <;> rcases pt with _ | pv4 <;>
      simp only [] at h2c <;>
      (split at h2c <;>
        · rw [Prod.mk.injEq] at h2c
          obtain ⟨h1b, h2b⟩ := h2c
          have hrb := (Option.some.inj h1b).symm
          subst hrb
          simp)

/-- Inputs and results of the two-call scenario for the C7 witness. -/
def pCreate1 : UserProfileCreate :=
  { phone := some (some "111"), city := none, country := none, timezone := none }

def pCreate2 : UserProfileCreate :=
  { phone := none, city := some (some "Lyon"), country := none, timezone := none }

def rowP1 : ProfileRow :=
  { id := 1, user_id := 7, phone := some "111", city := none, country := none,
    timezone := none, created_at := 0, updated_at := 0 }

def dbP1 : DB :=
  { users := [], profiles := [rowP1], nextUserId := 1, nextProfileId := 2, now := 0 }

def rowP2 : ProfileRow :=
  { id := 1, user_id := 7, phone := some "111", city := some "Lyon", country := none,
    timezone := none, created_at := 0, updated_at := 0 }

def dbP2 : DB :=
  { users := [], profiles := [rowP2], nextUserId := 1, nextProfileId := 2, now := 0 }

/-- The merged profile row for the C7 witness on `dbW`. -/
def profW1m : ProfileRow :=
  { id := 1, user_id := 1, phone := some "123", city := some "Paris", country := none,
    timezone := none, created_at := 0, updated_at := 5 }

def dbWm : DB :=
  { users := [userW1, userW2], profiles := [profW1m],
    nextUserId := 3, nextProfileId := 2, now := 5 }

/-- Witness for C7: merging onto the existing profile of user 1 keeps the
omitted `phone`, and in the two-call scenario on a fresh user the second
call keeps the phone set by the first. -/
theorem C7_create_user_profile_merge_witness :
    profW1m.phone = profW1.phone ∧
    rowP2.phone = pCreate1.phone.getD none := by
  constructor
  · exact (C7_create_user_profile_merge.1 dbW 1
      { phone := none, city := some (some "Paris"), country := none, timezone := none }
      profW1 profW1m dbWm rfl rfl).1 rfl
  · exact (C7_create_user_profile_merge.2 dbE 7 pCreate1 pCreate2
      rowP1 dbP1 rowP2 dbP2 rfl rfl rfl).1 rfl

end UserService
